import Mathlib

set_option maxHeartbeats 1000000

namespace BudgetTracker

/- Shallow embedding of the budget tracker's server code:
   src/app/expenseStore.ts (the in-memory store), src/app/api/entries/route.ts
   (the entries POST and GET handlers), and the chat route handler appended to
   the store file. TypeScript types are erased at runtime, and the handlers
   feed unvalidated JSON (from the client body and from JSON.parse of the
   model output) straight into the store; record fields that can therefore be
   absent at runtime are modelled with Option even where the TS annotation is
   total, and field values are copied verbatim, exactly as the spreads and
   assignments in the source do. JS numbers are modelled as Int: the handlers
   only copy amounts verbatim, so the numeric carrier is irrelevant here. -/

/-- Nine category labels: the CategoryKey union in expenseStore.ts and the
validCategories array in route.ts. -/
def validCategories : List String :=
  ["Food", "Transport", "Shopping", "Bills", "Coffee", "Entertainment",
   "Health", "Education", "Other"]

/-- Runtime expense record (Expense in expenseStore.ts). The TS annotation is
category : CategoryKey and amount : number, but the values reaching a record
come from untyped JSON with no runtime check, so amount and category can be
absent and category can be any string; both are stored verbatim. The id and
date fields are always strings on every path that builds a record
(Date.now().toString(), d.date or today). -/
structure Expense where
  id : String
  amount : Option Int
  category : Option String
  note : Option String
  date : String
deriving DecidableEq, Repr

/-- Update payload of updateExpenseById. The declared TS parameter type is
Partial of Expense without id, but that annotation is erased at runtime and
the update_last_expense branch passes the parsed model data object wholesale,
so the runtime update object can carry any of the Expense keys, id included;
a present key overwrites, an absent key keeps the old value, as the object
spread in the source does. -/
structure ExpenseUpdates where
  id : Option String := none
  amount : Option Int := none
  category : Option String := none
  note : Option String := none
  date : Option String := none
deriving DecidableEq, Repr

/-- Merge of updates into an expense: the spread expression in
updateExpenseById copies every key present on the updates object over the old
record, the id key included when the caller's object carries one. -/
def applyUpdates (e : Expense) (u : ExpenseUpdates) : Expense :=
  { id := u.id.getD e.id
    amount := u.amount <|> e.amount
    category := u.category <|> e.category
    note := u.note <|> e.note
    date := u.date.getD e.date }

/-- Budget object (BudgetMap in expenseStore.ts), a JS object read through
optional keys: a map from key strings to optional numeric limits. The
set_budget handlers write whatever key string the model supplied, so the
domain is all strings, not only the nine labels plus total. -/
abbrev BudgetMap := String → Option Int

/-- The three module-level variables of expenseStore.ts. -/
structure StoreState where
  expenses : List Expense
  budget : BudgetMap
  lastTransaction : Option Expense

/-- Module initialisation: expenses = [], budget with total 50000, Food 15000,
Entertainment 5000, lastTransaction = null. -/
def initialStore : StoreState :=
  { expenses := []
    budget := fun k =>
      if k = "total" then some 50000
      else if k = "Food" then some 15000
      else if k = "Entertainment" then some 5000
      else none
    lastTransaction := none }

def setExpensesForRequest (clientExpenses : List Expense) (s : StoreState) : StoreState :=
  { s with expenses := clientExpenses, lastTransaction := clientExpenses.head? }

def addExpense (e : Expense) (s : StoreState) : StoreState :=
  { s with expenses := e :: s.expenses, lastTransaction := some e }

def getExpenses (s : StoreState) : List Expense := s.expenses

/-- Recursive rendering of findIndex plus in-place assignment in
updateExpenseById: locate the first element whose id matches, replace it by
the merged record, return the new list and the merged record. -/
def updateFirstById (id : String) (u : ExpenseUpdates) : List Expense → Option (List Expense × Expense)
  | [] => none
  | e :: rest =>
    if e.id = id then some (applyUpdates e u :: rest, applyUpdates e u)
    else
      match updateFirstById id u rest with
      | none => none
      | some (rest2, upd) => some (e :: rest2, upd)

def updateExpenseById (id : String) (u : ExpenseUpdates) (s : StoreState) : Bool × StoreState :=
  match updateFirstById id u s.expenses with
  | none => (false, s)
  | some (es, upd) =>
    (true, { s with
      expenses := es
      lastTransaction :=
        match s.lastTransaction with
        | some t => if t.id = id then some upd else some t
        | none => none })

def getBudget (s : StoreState) : BudgetMap := s.budget

def setBudget (b : BudgetMap) (s : StoreState) : StoreState := { s with budget := b }

def deleteExpense (id : String) (s : StoreState) : StoreState :=
  { s with expenses := s.expenses.filter (fun e => e.id != id) }

def clearExpenses (s : StoreState) : StoreState :=
  { s with expenses := [], lastTransaction := none }

def getLastTransaction (s : StoreState) : Option Expense := s.lastTransaction

def updateLastTransaction (e : Option Expense) (s : StoreState) : StoreState :=
  { s with lastTransaction := e }

/-- One call to an exported mutator of expenseStore.ts. -/
inductive StoreOp where
  | setExpensesForRequest (es : List Expense)
  | addExpense (e : Expense)
  | updateExpenseById (id : String) (u : ExpenseUpdates)
  | deleteExpense (id : String)
  | clearExpenses
  | updateLastTransaction (e : Option Expense)
deriving Repr

def applyOp : StoreOp → StoreState → StoreState
  | .setExpensesForRequest es, s => setExpensesForRequest es s
  | .addExpense e, s => addExpense e s
  | .updateExpenseById id u, s => (updateExpenseById id u s).2
  | .deleteExpense id, s => deleteExpense id s
  | .clearExpenses, s => clearExpenses s
  | .updateLastTransaction e, s => updateLastTransaction e s

def runOps : List StoreOp → StoreState → StoreState
  | [], s => s
  | op :: ops, s => runOps ops (applyOp op s)

/-- Invariant named by the spec: the newest (first) array element is the last
transaction, and an empty list has a null last transaction; equivalently,
lastTransaction equals the optional head of the expense list. -/
def storeInv (s : StoreState) : Prop := s.lastTransaction = s.expenses.head?

instance (s : StoreState) : Decidable (storeInv s) :=
  inferInstanceAs (Decidable (s.lastTransaction = s.expenses.head?))

/-- Mutators that maintain storeInv; deleteExpense never touches
lastTransaction and updateLastTransaction sets it arbitrarily, so both are
excluded. -/
def invSafeOp : StoreOp → Bool
  | .deleteExpense _ => false
  | .updateLastTransaction _ => false
  | _ => true

/- Route handlers. The model call is nondeterministic IO: its outcome is an
oracle parameter, none when the fetch failed or JSON.parse threw, some p when
a JSON object was parsed. Date.now().toString() and the dd-MM-yyyy-formatted
current date are likewise passed in as the newId and today parameters. A
handler returns Except: error models the uncaught TypeError thrown when a
branch dereferences a field of a missing data object (the request then ends
as a 500 with no JSON body). -/

/-- Fields of parsed.data that the handlers read; values are optional because
the model's JSON carries no guarantee. The result field is the opaque
summary array passed through to the client. -/
structure RawData where
  id : Option String := none
  amount : Option Int := none
  category : Option String := none
  note : Option String := none
  date : Option String := none
  result : Option (List (String × Int)) := none
deriving DecidableEq, Repr

/-- Parsed model response; intent, execution_status and reply are absent when
the parsed JSON lacks them (the chat route additionally never reads
execution_status). -/
structure ParsedResponse where
  intent : Option String := none
  execution_status : Option String := none
  data : Option RawData := none
  reply : Option String := none
deriving DecidableEq, Repr

/-- Entries POST body after req.json(): the destructuring reads message and
expenses only; expenses is some list exactly when the client sent an array
(Array.isArray), and any budget key a client may send is never read. -/
structure RequestBody where
  message : String
  expenses : Option (List Expense) := none
  budget : Option BudgetMap := none

/-- JSON response body assembled by NextResponse.json; a key whose value is
undefined is dropped from the serialised body, hence every field is Option
with none meaning absent. -/
structure ApiResponse where
  reply : Option String := none
  data : Option RawData := none
  updatedExpenses : Option (List Expense) := none
  updatedBudget : Option BudgetMap := none
  summaryData : Option (List (String × Int)) := none

/-- JS truthiness of an optional string (absent, null and the empty string
are falsy). -/
def optTruthy : Option String → Bool
  | none => false
  | some t => t != ""

/-- JS expression o or-else dflt on an optional string. -/
def strOr (o : Option String) (dflt : String) : String :=
  match o with
  | some t => if t != "" then t else dflt
  | none => dflt

/-- Single-key write into a budget object, as in newBudget[key] = amount. -/
def budgetSet (b : BudgetMap) (k : String) (v : Option Int) : BudgetMap :=
  fun k2 => if k2 = k then v else b k2

/-- ASCII lowercasing of a string, the effect of toLowerCase on the ASCII
keys compared by the set_budget branches (String.toLower itself is defined by
well-founded recursion and does not evaluate inside the kernel). -/
def lowerString (s : String) : String := String.mk (s.data.map Char.toLower)

/-- Key chosen by the set_budget branch shared by both routes: the supplied
category verbatim when it is truthy and not case-insensitively equal to
total, and the total key otherwise. -/
def budgetKeyOf (cat : Option String) : String :=
  match cat with
  | some c => if c != "" && lowerString c != "total" then c else "total"
  | none => "total"

/-- Passing parsed.data wholesale as the updates argument of
updateExpenseById: the keys of Expense it may carry, id included. -/
def toUpdates (d : RawData) : ExpenseUpdates :=
  { id := d.id, amount := d.amount, category := d.category,
    note := d.note, date := d.date }

/-- Updates obtained from an optional data object: spreading undefined adds
no keys, so a missing data object yields the empty update. -/
def updatesOfData : Option RawData → ExpenseUpdates
  | some d => toUpdates d
  | none => {}

/-- Record built by the log_expense branch: every field of the model data is
copied verbatim (no category or amount validation), the date falls back to
today when the model supplied none, the id is the stringified clock. -/
def mkLogExpense (newId today : String) (d : RawData) : Expense :=
  { id := newId, amount := d.amount, category := d.category,
    note := d.note, date := strOr d.date today }

/-- Hydration step at the top of the entries POST handler: replace the store
expenses from the client body when an array was sent, otherwise leave the
store untouched. -/
def hydrateStore (body : RequestBody) (s : StoreState) : StoreState :=
  match body.expenses with
  | some l => setExpensesForRequest l s
  | none => s

def entriesFallbackMsg : String :=
  "⚠️ I couldn’t understand that. Could you rephrase?"

def chatFallbackMsg : String :=
  "⚠️ I had trouble understanding that. Could you rephrase your question?"

def noRecentMsg : String :=
  "🤔 There\x27s no recent transaction to update."

def notFoundMsg : String :=
  "❌ Sorry, I couldn\x27t find the transaction to update."

def unsureMsg : String :=
  "🤔 I\x27m not sure how to handle that request."

/-- POST handler of src/app/api/entries/route.ts. -/
def entriesPOST (body : RequestBody) (oracle : Option ParsedResponse)
    (today newId : String) (s : StoreState) :
    Except Unit (ApiResponse × StoreState) :=
  let s1 := hydrateStore body s
  match oracle with
  | none => .ok ({ reply := some entriesFallbackMsg }, s1)
  | some p =>
    if optTruthy p.intent = false ∨ p.execution_status = some "ERROR" then
      .ok ({ reply := some entriesFallbackMsg }, s1)
    else if p.execution_status = some "CLARIFICATION_NEEDED" then
      .ok ({ reply := p.reply, data := p.data }, s1)
    else
      match p.intent with
      | some "log_expense" =>
        match p.data with
        | none => .error ()
        | some d =>
          let s2 := addExpense (mkLogExpense newId today d) s1
          .ok ({ reply := p.reply, updatedExpenses := some (getExpenses s2) }, s2)
      | some "update_last_expense" =>
        match getLastTransaction s1 with
        | none => .ok ({ reply := some noRecentMsg }, s1)
        | some lastTx =>
          let u := updatesOfData p.data
          let res := updateExpenseById lastTx.id u s1
          if res.1 then
            let s3 := updateLastTransaction (some (applyUpdates lastTx u)) res.2
            .ok ({ reply := p.reply, updatedExpenses := some (getExpenses s3) }, s3)
          else
            .ok ({ reply := some notFoundMsg }, res.2)
      | some "get_summary" =>
        match p.data with
        | none => .error ()
        | some d => .ok ({ reply := p.reply, summaryData := d.result }, s1)
      | some "set_budget" =>
        match p.data with
        | none => .error ()
        | some d =>
          let s2 := setBudget (budgetSet (getBudget s1) (budgetKeyOf d.category) d.amount) s1
          .ok ({ reply := p.reply, updatedBudget := some (getBudget s2) }, s2)
      | some "get_advice" => .ok ({ reply := p.reply }, s1)
      | _ => .ok ({ reply := some unsureMsg }, s1)

/-- GET handler of src/app/api/entries/route.ts. -/
def entriesGET (s : StoreState) : List Expense × BudgetMap :=
  (getExpenses s, getBudget s)

/-- POST handler of the chat route (second handler appended to the store
file): reads only the message, never mutates the expense list, dispatches on
intent with its own fallback text. -/
def chatPOST (oracle : Option ParsedResponse) (s : StoreState) :
    Except Unit (ApiResponse × StoreState) :=
  match oracle with
  | none => .ok ({ reply := some chatFallbackMsg }, s)
  | some p =>
    if optTruthy p.intent = false then
      .ok ({ reply := some chatFallbackMsg }, s)
    else
      match p.intent with
      | some "set_budget" =>
        match p.data with
        | none => .error ()
        | some d =>
          let s2 := setBudget (budgetSet (getBudget s) (budgetKeyOf d.category) d.amount) s
          .ok ({ reply := p.reply, updatedBudget := some (getBudget s2) }, s2)
      | some "get_summary" | some "get_advice" =>
        match p.data with
        | none => .error ()
        | some d => .ok ({ reply := p.reply, summaryData := d.result }, s)
      | _ => .ok ({ reply := some (strOr p.reply unsureMsg) }, s)

def okState : Except Unit (ApiResponse × StoreState) → Option StoreState
  | .ok (_, s) => some s
  | .error _ => none

def okResponse : Except Unit (ApiResponse × StoreState) → Option ApiResponse
  | .ok (r, _) => some r
  | .error _ => none

/-- Shape predicate for the dd-MM-yyyy day-month-year date format named by
the spec: two digits, a dash, two digits, a dash, four digits. -/
def isDdMmYyyy (str : String) : Bool :=
  match str.toList with
  | [d1, d2, '-', m1, m2, '-', y1, y2, y3, y4] =>
    d1.isDigit && d2.isDigit && m1.isDigit && m2.isDigit &&
    y1.isDigit && y2.isDigit && y3.isDigit && y4.isDigit
  | _ => false

/-- Membership of an optional category string in the nine-label set. -/
def isValidCategory (o : Option String) : Bool :=
  match o with
  | some c => validCategories.contains c
  | none => false

/- Sample records used by concrete witnesses and counterexamples. -/

def sampleA : Expense :=
  { id := "a", amount := some 120, category := some "Food",
    note := some "lunch", date := "01-10-2025" }

def sampleB : Expense :=
  { id := "b", amount := some 60, category := some "Coffee",
    note := none, date := "02-10-2025" }

def sampleA2 : Expense :=
  { id := "a", amount := some 75, category := some "Transport",
    note := none, date := "03-10-2025" }

def sampleU : ExpenseUpdates := { amount := some 250 }

/-- Concrete store with one duplicate id pair behind a non-matching head. -/
def storeBAA2 : StoreState :=
  { expenses := [sampleB, sampleA, sampleA2], budget := initialStore.budget,
    lastTransaction := none }

/-- Concrete store whose last transaction is its head. -/
def storeBA : StoreState :=
  { expenses := [sampleB, sampleA], budget := initialStore.budget,
    lastTransaction := some sampleB }

/- Helper lemmas on the first-match update. -/

theorem applyUpdates_id (e : Expense) (u : ExpenseUpdates) (h : u.id = none) :
    (applyUpdates e u).id = e.id := by
  simp [applyUpdates, h]

theorem updateFirstById_eq_none_iff (id : String) (u : ExpenseUpdates)
    (es : List Expense) :
    updateFirstById id u es = none ↔ ∀ x ∈ es, x.id ≠ id := by
  induction es with
  | nil => simp [updateFirstById]
  | cons e rest ih =>
    by_cases h : e.id = id
    · simp [updateFirstById, h]
    · cases hr : updateFirstById id u rest with
      | none =>
        have hrest := ih.mp hr
        simp only [updateFirstById, if_neg h, hr, List.forall_mem_cons]
        exact iff_of_true (by trivial) ⟨h, hrest⟩
      | some v =>
        obtain ⟨rest2, upd⟩ := v
        have hnall : ¬ ∀ x ∈ rest, x.id ≠ id := fun hall => by
          rw [ih.mpr hall] at hr; cases hr
        simp only [updateFirstById, if_neg h, hr, List.forall_mem_cons]
        exact iff_of_false (by simp) (fun hc => hnall hc.2)

theorem updateFirstById_first_match (id : String) (u : ExpenseUpdates)
    (l₁ l₂ : List Expense) (e : Expense)
    (h₁ : ∀ x ∈ l₁, x.id ≠ id) (he : e.id = id) :
    updateFirstById id u (l₁ ++ e :: l₂) =
      some (l₁ ++ applyUpdates e u :: l₂, applyUpdates e u) := by
  induction l₁ with
  | nil => simp [updateFirstById, he]
  | cons y l₁ ih =>
    have hy : y.id ≠ id := h₁ y (by simp)
    have ih2 := ih (fun x hx => h₁ x (by simp [hx]))
    show updateFirstById id u (y :: (l₁ ++ e :: l₂)) = _
    rw [updateFirstById, if_neg hy, ih2]
    rfl

theorem updateFirstById_some_decomp (id : String) (u : ExpenseUpdates) :
    ∀ (es es' : List Expense) (upd : Expense),
      updateFirstById id u es = some (es', upd) →
      ∃ l₁ x l₂, es = l₁ ++ x :: l₂ ∧ (∀ y ∈ l₁, y.id ≠ id) ∧ x.id = id ∧
        es' = l₁ ++ applyUpdates x u :: l₂ ∧ upd = applyUpdates x u := by
  intro es
  induction es with
  | nil => intro es' upd h; simp [updateFirstById] at h
  | cons e rest ih =>
    intro es' upd h
    by_cases hid : e.id = id
    · simp only [updateFirstById, if_pos hid, Option.some.injEq, Prod.mk.injEq] at h
      exact ⟨[], e, rest, by simp, by simp, hid, by simp [h.1.symm], h.2.symm⟩
    · simp only [updateFirstById, if_neg hid] at h
      cases hr : updateFirstById id u rest with
      | none => rw [hr] at h; cases h
      | some v =>
        obtain ⟨rest2, upd2⟩ := v
        rw [hr] at h
        simp only [Option.some.injEq, Prod.mk.injEq] at h
        obtain ⟨l₁, x, l₂, hsplit, hl₁, hx, hes', hupd⟩ := ih rest2 upd2 hr
        refine ⟨e :: l₁, x, l₂, by simp [hsplit], ?_, hx, ?_, ?_⟩
        · intro y hy
          rcases List.mem_cons.mp hy with hy | hy
          · rw [hy]; exact hid
          · exact hl₁ y hy
        · rw [← h.1, hes']; simp
        · rw [← h.2, hupd]

/- Preservation of the last-transaction invariant by the individual
mutators. -/

theorem storeInv_setExpensesForRequest (l : List Expense) (s : StoreState) :
    storeInv (setExpensesForRequest l s) := rfl

theorem storeInv_addExpense (e : Expense) (s : StoreState) :
    storeInv (addExpense e s) := rfl

theorem storeInv_clearExpenses (s : StoreState) :
    storeInv (clearExpenses s) := rfl

theorem storeInv_updateExpenseById (id : String) (u : ExpenseUpdates)
    (s : StoreState) (h : storeInv s) :
    storeInv (updateExpenseById id u s).2 := by
  unfold storeInv at h ⊢
  cases hs : s.expenses with
  | nil =>
    unfold updateExpenseById
    rw [hs]
    simp [updateFirstById, h, hs]
  | cons e rest =>
    rw [hs] at h
    simp only [List.head?] at h
    unfold updateExpenseById
    rw [hs]
    by_cases hid : e.id = id
    · simp only [updateFirstById, if_pos hid]
      rw [h]
      simp [hid]
    · simp only [updateFirstById, if_neg hid]
      cases hr : updateFirstById id u rest with
      | none => simpa [hs] using h
      | some v =>
        obtain ⟨rest2, upd⟩ := v
        rw [h]
        simp [hid]

theorem storeInv_applyOp_safe (op : StoreOp) (s : StoreState)
    (hop : invSafeOp op = true) (h : storeInv s) : storeInv (applyOp op s) := by
  cases op with
  | setExpensesForRequest es => exact storeInv_setExpensesForRequest es s
  | addExpense e => exact storeInv_addExpense e s
  | updateExpenseById id u => exact storeInv_updateExpenseById id u s h
  | deleteExpense id => cases hop
  | clearExpenses => exact storeInv_clearExpenses s
  | updateLastTransaction e => cases hop

/-- C1 (corrected): the last-transaction invariant fails in a reachable
state — add one expense, then delete it by id; the expense list becomes
empty while the last transaction still holds the removed record, so the
invariant does not hold in every state reachable by the listed store
operations. -/
theorem storeInv_violated_by_delete :
    ¬ storeInv (runOps
      [StoreOp.addExpense sampleA, StoreOp.deleteExpense "a"] initialStore) := by
  decide

/-- C1 (amended): the invariant — the last transaction is the newest (first)
element of a non-empty expense list and null for an empty list — holds in
the initial module state and is preserved by setExpensesForRequest,
addExpense, updateExpenseById and clearExpenses, i.e. in every state
reachable by those four operations; deleteExpense (which never touches the
last transaction) and updateLastTransaction (which sets it arbitrarily) do
not preserve it. -/
theorem storeInv_reachable_by_safe_ops :
    storeInv initialStore ∧
    ∀ (ops : List StoreOp) (s : StoreState), storeInv s →
      (∀ op ∈ ops, invSafeOp op = true) → storeInv (runOps ops s) := by
  constructor
  · rfl
  · intro ops
    induction ops with
    | nil => intro s h _; exact h
    | cons op ops ih =>
      intro s h hsafe
      exact ih (applyOp op s)
        (storeInv_applyOp_safe op s (hsafe op (by simp)) h)
        (fun o ho => hsafe o (by simp [ho]))

/-- Witness for the amended C1 theorem at a concrete operation list. -/
theorem storeInv_reachable_by_safe_ops_witness :
    storeInv (runOps [StoreOp.addExpense sampleA, StoreOp.clearExpenses] initialStore) :=
  storeInv_reachable_by_safe_ops.2
    [StoreOp.addExpense sampleA, StoreOp.clearExpenses] initialStore
    storeInv_reachable_by_safe_ops.1 (by decide)

/-- C6 (confirmed): on a list that contains a matching identifier — written
as a first-match decomposition l₁ ++ e :: l₂ with no match in l₁ —
updateExpenseById returns true and replaces exactly that first matching
element by the field-merged record, leaving l₁ and l₂ (which may hold
further elements with the same id) unchanged. -/
theorem updateExpenseById_updates_first_match (id : String) (u : ExpenseUpdates)
    (s : StoreState) (l₁ l₂ : List Expense) (e : Expense)
    (hsplit : s.expenses = l₁ ++ e :: l₂)
    (h₁ : ∀ x ∈ l₁, x.id ≠ id) (he : e.id = id) :
    (updateExpenseById id u s).1 = true ∧
    (updateExpenseById id u s).2.expenses = l₁ ++ applyUpdates e u :: l₂ := by
  unfold updateExpenseById
  rw [hsplit, updateFirstById_first_match id u l₁ l₂ e h₁ he]
  exact ⟨rfl, rfl⟩

/-- Witness for C6: duplicate ids, only the first match is modified. -/
theorem updateExpenseById_updates_first_match_witness :
    (updateExpenseById "a" sampleU storeBAA2).1 = true ∧
    (updateExpenseById "a" sampleU storeBAA2).2.expenses =
      [sampleB, applyUpdates sampleA sampleU, sampleA2] :=
  updateExpenseById_updates_first_match "a" sampleU storeBAA2
    [sampleB] [sampleA2] sampleA rfl (by decide) (by decide)

/-- C8 (confirmed): deleteExpense removes exactly the elements with the given
id (the result is an order-preserving sublist whose members are the old
members with a different id), leaves the budget and the stored last
transaction untouched; in particular, deleting the id of the most recently
added expense still leaves that record in getLastTransaction. -/
theorem deleteExpense_frame (id : String) (s : StoreState) :
    ((deleteExpense id s).expenses.Sublist s.expenses) ∧
    (∀ e : Expense, e ∈ (deleteExpense id s).expenses ↔
      e ∈ s.expenses ∧ e.id ≠ id) ∧
    ((deleteExpense id s).lastTransaction = s.lastTransaction) ∧
    ((deleteExpense id s).budget = s.budget) ∧
    (∀ (e : Expense) (s0 : StoreState),
      getLastTransaction (deleteExpense e.id (addExpense e s0)) = some e) := by
  refine ⟨List.filter_sublist _, ?_, rfl, rfl, fun e s0 => rfl⟩
  intro e
  simp [deleteExpense, List.mem_filter]

/-- Witness for C8 at a concrete store: the deleted record survives as the
last transaction. -/
theorem deleteExpense_frame_witness :
    getLastTransaction (deleteExpense sampleA.id (addExpense sampleA initialStore)) =
      some sampleA :=
  (deleteExpense_frame sampleA.id initialStore).2.2.2.2 sampleA initialStore

/-- C9 (amended): updateExpenseById preserves the length and order of the
list; when no element matches it returns false and leaves the state entirely
unchanged; any position whose element changed holds the first match (its old
element has the given id and every earlier position does not); and the
identifiers of the expenses are all preserved whenever the update object
carries no id key — the declared type omits id, but the route passes the
unvalidated model data wholesale, so a runtime update object can carry one
and then rewrites the matched record's identifier. -/
theorem updateExpenseById_frame (id : String) (u : ExpenseUpdates) (s : StoreState) :
    (u.id = none →
      (updateExpenseById id u s).2.expenses.map Expense.id =
        s.expenses.map Expense.id) ∧
    ((updateExpenseById id u s).2.expenses.length = s.expenses.length) ∧
    ((∀ x ∈ s.expenses, x.id ≠ id) → updateExpenseById id u s = (false, s)) ∧
    (∀ j, (updateExpenseById id u s).2.expenses.get? j ≠ s.expenses.get? j →
      ∃ x, s.expenses.get? j = some x ∧ x.id = id ∧
        ∀ k, k < j → ∀ y, s.expenses.get? k = some y → y.id ≠ id) := by
  cases h : updateFirstById id u s.expenses with
  | none =>
    have hunch : updateExpenseById id u s = (false, s) := by
      unfold updateExpenseById; rw [h]
    refine ⟨fun _ => by rw [hunch], by rw [hunch], fun _ => hunch, ?_⟩
    intro j hj
    rw [hunch] at hj
    exact absurd rfl hj
  | some v =>
    obtain ⟨es', upd⟩ := v
    obtain ⟨l₁, x, l₂, hsplit, hl₁, hx, hes', hupd⟩ :=
      updateFirstById_some_decomp id u s.expenses es' upd h
    have hexp : (updateExpenseById id u s).2.expenses = es' := by
      unfold updateExpenseById; rw [h]
    constructor
    · intro hu
      rw [hexp, hes', hsplit]
      simp [applyUpdates_id x u hu]
    constructor
    · rw [hexp, hes', hsplit]
      simp
    constructor
    · intro hall
      exact absurd hx (hall x (by rw [hsplit]; simp))
    · intro j hj
      rw [hexp, hes', hsplit] at hj
      rcases lt_trichotomy j l₁.length with hlt | heq | hgt
      · exfalso
        rw [List.get?_append hlt, List.get?_append hlt] at hj
        exact hj rfl
      · refine ⟨x, ?_, hx, ?_⟩
        · rw [hsplit, heq, List.get?_append_right (le_refl _)]
          simp
        · intro k hk y hy
          rw [hsplit] at hy
          rw [heq] at hk
          rw [List.get?_append hk] at hy
          exact hl₁ y (List.get?_mem hy)
      · exfalso
        have h₁ : l₁.length ≤ j := le_of_lt hgt
        rw [List.get?_append_right h₁, List.get?_append_right h₁] at hj
        have hpos : 0 < j - l₁.length := Nat.sub_pos_of_lt hgt
        rcases Nat.exists_eq_succ_of_ne_zero (Nat.pos_iff_ne_zero.mp hpos) with ⟨n, hn⟩
        rw [hn] at hj
        simp only [List.get?_cons_succ] at hj
        exact hj rfl

/- Evaluation lemmas for the entries POST handler, one per dispatch branch;
they lift the handler equation to an explicit result so that the claim
theorems can reason about the response and the resulting store. -/

theorem hydrateStore_budget (body : RequestBody) (s : StoreState) :
    (hydrateStore body s).budget = s.budget := by
  unfold hydrateStore
  cases body.expenses <;> rfl

theorem entriesPOST_fallback_eq (body : RequestBody) (o : Option ParsedResponse)
    (today newId : String) (s : StoreState)
    (h : o = none ∨ ∃ p, o = some p ∧ optTruthy p.intent = false) :
    entriesPOST body o today newId s =
      .ok ({ reply := some entriesFallbackMsg }, hydrateStore body s) := by
  rcases h with h | ⟨p, hp, hfalse⟩
  · rw [h]; rfl
  · rw [hp]
    simp only [entriesPOST]
    rw [if_pos (Or.inl hfalse)]

theorem chatPOST_fallback_eq (o : Option ParsedResponse) (s : StoreState)
    (h : o = none ∨ ∃ p, o = some p ∧ optTruthy p.intent = false) :
    chatPOST o s = .ok ({ reply := some chatFallbackMsg }, s) := by
  rcases h with h | ⟨p, hp, hfalse⟩
  · rw [h]; rfl
  · rw [hp]
    simp only [chatPOST]
    rw [if_pos hfalse]

theorem entriesPOST_log_eq (body : RequestBody) (p : ParsedResponse)
    (today newId : String) (s : StoreState) (d : RawData)
    (hint : p.intent = some "log_expense")
    (hs1 : p.execution_status ≠ some "ERROR")
    (hs2 : p.execution_status ≠ some "CLARIFICATION_NEEDED")
    (hd : p.data = some d) :
    entriesPOST body (some p) today newId s =
      .ok ({ reply := p.reply,
             updatedExpenses :=
               some (getExpenses (addExpense (mkLogExpense newId today d)
                 (hydrateStore body s))) },
           addExpense (mkLogExpense newId today d) (hydrateStore body s)) := by
  simp only [entriesPOST]
  rw [if_neg (by simp [optTruthy, hint, hs1])]
  rw [if_neg hs2, hint, hd]
  rfl

theorem entriesPOST_summary_eq (body : RequestBody) (p : ParsedResponse)
    (today newId : String) (s : StoreState) (d : RawData)
    (hint : p.intent = some "get_summary")
    (hs1 : p.execution_status ≠ some "ERROR")
    (hs2 : p.execution_status ≠ some "CLARIFICATION_NEEDED")
    (hd : p.data = some d) :
    entriesPOST body (some p) today newId s =
      .ok ({ reply := p.reply, summaryData := d.result }, hydrateStore body s) := by
  simp only [entriesPOST]
  rw [if_neg (by simp [optTruthy, hint, hs1])]
  rw [if_neg hs2, hint, hd]
  rfl

theorem entriesPOST_set_budget_eq (body : RequestBody) (p : ParsedResponse)
    (today newId : String) (s : StoreState) (d : RawData)
    (hint : p.intent = some "set_budget")
    (hs1 : p.execution_status ≠ some "ERROR")
    (hs2 : p.execution_status ≠ some "CLARIFICATION_NEEDED")
    (hd : p.data = some d) :
    entriesPOST body (some p) today newId s =
      .ok ({ reply := p.reply,
             updatedBudget :=
               some (budgetSet (hydrateStore body s).budget
                 (budgetKeyOf d.category) d.amount) },
           setBudget (budgetSet (hydrateStore body s).budget
             (budgetKeyOf d.category) d.amount) (hydrateStore body s)) := by
  simp only [entriesPOST]
  rw [if_neg (by simp [optTruthy, hint, hs1])]
  rw [if_neg hs2, hint, hd]
  rfl

theorem entriesPOST_update_no_last_eq (body : RequestBody) (p : ParsedResponse)
    (today newId : String) (s : StoreState)
    (hint : p.intent = some "update_last_expense")
    (hs1 : p.execution_status ≠ some "ERROR")
    (hs2 : p.execution_status ≠ some "CLARIFICATION_NEEDED")
    (hlast : (hydrateStore body s).lastTransaction = none) :
    entriesPOST body (some p) today newId s =
      .ok ({ reply := some noRecentMsg }, hydrateStore body s) := by
  simp only [entriesPOST]
  rw [if_neg (by simp [optTruthy, hint, hs1])]
  rw [if_neg hs2, hint]
  simp only [getLastTransaction, hlast]

/-- Witness for the amended C9 theorem at a concrete store with no matching
id and an update object without an id key. -/
theorem updateExpenseById_frame_witness :
    ((updateExpenseById "z" sampleU storeBA).2.expenses.map Expense.id =
      storeBA.expenses.map Expense.id) ∧
    updateExpenseById "z" sampleU storeBA = (false, storeBA) :=
  ⟨(updateExpenseById_frame "z" sampleU storeBA).1 (by decide),
   (updateExpenseById_frame "z" sampleU storeBA).2.2.1 (by decide)⟩

/-- Update object whose JSON carries an id key, as the unvalidated model data
passed wholesale by the update_last_expense branch can. -/
def uEvil : ExpenseUpdates := { id := some "evil", amount := some 250 }

/-- C9 (counterexample): an update object carrying an id key — possible at
runtime because the update_last_expense branch passes the parsed model data
object wholesale into updateExpenseById, whose spread copies every present
key — rewrites the matched record's identifier: the id sequence changes from
b, a to b, evil, so the identifiers are not unchanged on every call. -/
theorem updateExpenseById_rewrites_id :
    (updateExpenseById "a" uEvil storeBA).1 = true ∧
    (updateExpenseById "a" uEvil storeBA).2.expenses.map Expense.id = ["b", "evil"] ∧
    storeBA.expenses.map Expense.id = ["b", "a"] := by
  decide

theorem entriesPOST_update_some_eq (body : RequestBody) (p : ParsedResponse)
    (today newId : String) (s : StoreState) (lastTx : Expense)
    (hint : p.intent = some "update_last_expense")
    (hs1 : p.execution_status ≠ some "ERROR")
    (hs2 : p.execution_status ≠ some "CLARIFICATION_NEEDED")
    (hlast : (hydrateStore body s).lastTransaction = some lastTx) :
    entriesPOST body (some p) today newId s =
      (if (updateExpenseById lastTx.id (updatesOfData p.data) (hydrateStore body s)).1 = true then
        .ok ({ reply := p.reply,
               updatedExpenses :=
                 some (getExpenses (updateLastTransaction
                   (some (applyUpdates lastTx (updatesOfData p.data)))
                   (updateExpenseById lastTx.id (updatesOfData p.data)
                     (hydrateStore body s)).2)) },
             updateLastTransaction
               (some (applyUpdates lastTx (updatesOfData p.data)))
               (updateExpenseById lastTx.id (updatesOfData p.data)
                 (hydrateStore body s)).2)
      else
        .ok ({ reply := some notFoundMsg },
             (updateExpenseById lastTx.id (updatesOfData p.data)
               (hydrateStore body s)).2)) := by
  simp only [entriesPOST]
  rw [if_neg (by simp [optTruthy, hint, hs1])]
  rw [if_neg hs2, hint]
  simp only [getLastTransaction, hlast]

theorem entriesPOST_data_none_error (body : RequestBody) (p : ParsedResponse)
    (today newId : String) (s : StoreState)
    (hint : p.intent = some "log_expense" ∨ p.intent = some "get_summary" ∨
      p.intent = some "set_budget")
    (hs1 : p.execution_status ≠ some "ERROR")
    (hs2 : p.execution_status ≠ some "CLARIFICATION_NEEDED")
    (hd : p.data = none) :
    entriesPOST body (some p) today newId s = .error () := by
  have htruthy : optTruthy p.intent = true := by
    rcases hint with h | h | h <;> rw [h] <;> rfl
  simp only [entriesPOST]
  rw [if_neg (by simp [htruthy, hs1])]
  rw [if_neg hs2]
  rcases hint with h | h | h <;> rw [h, hd] <;> rfl

/-- No JSON response of the entries POST handler carries more than one of the
three structured payloads (updated expense list, updated budget map, summary
data). -/
def atMostOnePayload (r : ApiResponse) : Prop :=
  (r.updatedExpenses = none ∧ r.updatedBudget = none) ∨
  (r.updatedExpenses = none ∧ r.summaryData = none) ∨
  (r.updatedBudget = none ∧ r.summaryData = none)

theorem entriesPOST_ok_atMostOne (body : RequestBody) (o : Option ParsedResponse)
    (today newId : String) (s : StoreState) (r : ApiResponse) (s2 : StoreState)
    (hok : entriesPOST body o today newId s = .ok (r, s2)) :
    atMostOnePayload r := by
  cases o with
  | none =>
    simp only [entriesPOST, Except.ok.injEq, Prod.mk.injEq] at hok
    obtain ⟨hr, _⟩ := hok
    subst hr
    simp [atMostOnePayload]
  | some p =>
    simp only [entriesPOST] at hok
    repeat' split at hok
    all_goals
      first
      | exact Except.noConfusion hok
      | · simp only [Except.ok.injEq, Prod.mk.injEq] at hok
          obtain ⟨hr, _⟩ := hok
          subst hr
          simp [atMostOnePayload]

/- Concrete request bodies and parsed model responses used by witnesses and
counterexamples. -/

def bodyPlain : RequestBody := { message := "hello" }

def bodyEmptyList : RequestBody := { message := "hi", expenses := some [] }

def clientBudgetOne : BudgetMap := fun k => if k = "total" then some 1 else none

def bodyWithBudget : RequestBody :=
  { message := "hi", expenses := some [], budget := some clientBudgetOne }

def dataGroceries : RawData := { amount := some 200, category := some "Groceries" }

def pGroceries : ParsedResponse :=
  { intent := some "log_expense", execution_status := some "SUCCESS",
    data := some dataGroceries, reply := some "Logged." }

def dataFoodLog : RawData :=
  { amount := some 10, category := some "Food", date := some "05-10-2025" }

def pLogFood : ParsedResponse :=
  { intent := some "log_expense", execution_status := some "SUCCESS",
    data := some dataFoodLog, reply := some "Logged." }

def dataNoDate : RawData := { amount := some 20, category := some "Food" }

def pLogNoDate : ParsedResponse :=
  { intent := some "log_expense", execution_status := some "SUCCESS",
    data := some dataNoDate, reply := some "Logged." }

def dataBadDate : RawData :=
  { amount := some 80, category := some "Food", date := some "2025/10/11" }

def pBadDate : ParsedResponse :=
  { intent := some "log_expense", execution_status := some "SUCCESS",
    data := some dataBadDate, reply := some "Logged." }

def dataAmount250 : RawData := { amount := some 250 }

def pUpdateNoLast : ParsedResponse :=
  { intent := some "update_last_expense", execution_status := some "SUCCESS",
    data := some dataAmount250, reply := some "Updated." }

def dataFoodSame : RawData := { category := some "Food", amount := some 15000 }

def pSetFoodSame : ParsedResponse :=
  { intent := some "set_budget", execution_status := some "SUCCESS",
    data := some dataFoodSame, reply := some "Done." }

def dataCoffee : RawData := { category := some "Coffee", amount := some 3000 }

def pSetCoffee : ParsedResponse :=
  { intent := some "set_budget", execution_status := some "SUCCESS",
    data := some dataCoffee, reply := some "Done." }

/-- Store reached by the witness log_expense request. -/
def logState7 : StoreState :=
  addExpense (mkLogExpense "7" "11-10-2025" dataFoodLog)
    (setExpensesForRequest [] initialStore)

/-- C2 (corrected): the entries POST handler hydrates before dispatching —
when the body carries an expenses array, the expense list and the last
transaction are replaced wholesale with it, and otherwise the store is kept
as it was — but the budget object is never taken from the request body: the
handler's result is unchanged whatever budget value the body carries, and
hydration leaves the stored budget intact. -/
theorem entriesPOST_hydration_only (body : RequestBody) (o : Option ParsedResponse)
    (today newId : String) (s : StoreState) :
    (∀ b : Option BudgetMap,
      entriesPOST { body with budget := b } o today newId s =
        entriesPOST body o today newId s) ∧
    (∀ l, body.expenses = some l →
      hydrateStore body s = setExpensesForRequest l s ∧
      (hydrateStore body s).expenses = l ∧
      (hydrateStore body s).lastTransaction = l.head?) ∧
    (body.expenses = none → hydrateStore body s = s) ∧
    (hydrateStore body s).budget = s.budget := by
  refine ⟨fun b => rfl, ?_, ?_, hydrateStore_budget body s⟩
  · intro l hl
    have h1 : hydrateStore body s = setExpensesForRequest l s := by
      simp only [hydrateStore, hl]
    rw [h1]
    exact ⟨rfl, rfl, rfl⟩
  · intro hl
    simp only [hydrateStore, hl]

/-- Witness for the amended C2 theorem at a concrete body and store. -/
theorem entriesPOST_hydration_only_witness :
    hydrateStore bodyEmptyList initialStore = setExpensesForRequest [] initialStore ∧
    (hydrateStore bodyEmptyList initialStore).budget = initialStore.budget :=
  ⟨((entriesPOST_hydration_only bodyEmptyList none "11-10-2025" "1" initialStore).2.1
      [] rfl).1,
   (entriesPOST_hydration_only bodyEmptyList none "11-10-2025" "1" initialStore).2.2.2⟩

/-- C2 (counterexample): a request whose body carries a budget object with
total 1 — after the request, the stored budget total is still the previous
50000, so the budget is not replaced with whatever the client supplied. -/
theorem entries_budget_not_from_client :
    clientBudgetOne "total" = some 1 ∧
    bodyWithBudget.budget = some clientBudgetOne ∧
    Option.map (fun st => st.budget "total")
      (okState (entriesPOST bodyWithBudget none "11-10-2025" "99" initialStore)) =
      some (some 50000) :=
  ⟨rfl, rfl, rfl⟩

/-- C4 (confirmed): whenever the model call failed or its content yielded no
truthy intent, the entries handler and the chat handler each return their
fixed static fallback reply, leaving the store as it was (after hydration in
the entries case), uniformly for every request and store. -/
theorem model_failure_fallback (body : RequestBody) (o : Option ParsedResponse)
    (today newId : String) (s sc : StoreState)
    (h : o = none ∨ ∃ p, o = some p ∧ optTruthy p.intent = false) :
    entriesPOST body o today newId s =
      .ok ({ reply := some entriesFallbackMsg }, hydrateStore body s) ∧
    chatPOST o sc = .ok ({ reply := some chatFallbackMsg }, sc) :=
  ⟨entriesPOST_fallback_eq body o today newId s h, chatPOST_fallback_eq o sc h⟩

/-- Witness for C4: a failed model call (oracle none) on a concrete store. -/
theorem model_failure_fallback_witness :
    entriesPOST bodyPlain none "11-10-2025" "1" initialStore =
      .ok ({ reply := some entriesFallbackMsg }, hydrateStore bodyPlain initialStore) ∧
    chatPOST none initialStore = .ok ({ reply := some chatFallbackMsg }, initialStore) :=
  model_failure_fallback bodyPlain none "11-10-2025" "1" initialStore initialStore
    (Or.inl rfl)

/-- C3 (amended): the log_expense branch records the model-supplied category
string verbatim, with no runtime validation against the nine labels: the
stored record's category equals the data's category, and it lies in the
nine-label set exactly when the model's string does. -/
theorem entriesPOST_log_category_verbatim (body : RequestBody) (p : ParsedResponse)
    (today newId : String) (s : StoreState) (d : RawData)
    (hint : p.intent = some "log_expense")
    (hs1 : p.execution_status ≠ some "ERROR")
    (hs2 : p.execution_status ≠ some "CLARIFICATION_NEEDED")
    (hd : p.data = some d) :
    Option.map (fun st => st.expenses.head?)
      (okState (entriesPOST body (some p) today newId s)) =
      some (some (mkLogExpense newId today d)) ∧
    (mkLogExpense newId today d).category = d.category ∧
    (isValidCategory d.category = true →
      isValidCategory (mkLogExpense newId today d).category = true) := by
  refine ⟨?_, rfl, fun h => h⟩
  rw [entriesPOST_log_eq body p today newId s d hint hs1 hs2 hd]
  rfl

/-- Witness for the amended C3 theorem: a model response with the valid
category Food is recorded and stays valid. -/
theorem entriesPOST_log_category_verbatim_witness :
    Option.map (fun st => st.expenses.head?)
      (okState (entriesPOST bodyEmptyList (some pLogFood) "11-10-2025" "7" initialStore)) =
      some (some (mkLogExpense "7" "11-10-2025" dataFoodLog)) ∧
    isValidCategory (mkLogExpense "7" "11-10-2025" dataFoodLog).category = true :=
  ⟨(entriesPOST_log_category_verbatim bodyEmptyList pLogFood "11-10-2025" "7"
      initialStore dataFoodLog rfl (by decide) (by decide) rfl).1,
   (entriesPOST_log_category_verbatim bodyEmptyList pLogFood "11-10-2025" "7"
      initialStore dataFoodLog rfl (by decide) (by decide) rfl).2.2 (by decide)⟩

/-- C3 (counterexample): a log_expense request whose model data carries the
category Groceries — outside the nine labels — is recorded as-is, so the
store holds an expense whose category is not one of the nine labels. -/
theorem log_expense_records_invalid_category :
    Option.map (fun st => st.expenses.map Expense.category)
      (okState (entriesPOST bodyEmptyList (some pGroceries) "11-10-2025" "42" initialStore)) =
      some [some "Groceries"] ∧
    isValidCategory (some "Groceries") = false :=
  ⟨rfl, by decide⟩

/-- C7 (amended): the log_expense branch stores the model-supplied date
string verbatim; only when the model supplies no truthy date does the new
expense carry today's date, which is then in dd-MM-yyyy shape whenever the
formatted current date is. -/
theorem entriesPOST_log_date (body : RequestBody) (p : ParsedResponse)
    (today newId : String) (s : StoreState) (d : RawData)
    (hint : p.intent = some "log_expense")
    (hs1 : p.execution_status ≠ some "ERROR")
    (hs2 : p.execution_status ≠ some "CLARIFICATION_NEEDED")
    (hd : p.data = some d) :
    Option.map (fun st => st.expenses.map Expense.date)
      (okState (entriesPOST body (some p) today newId s)) =
      some ((mkLogExpense newId today d).date ::
        (hydrateStore body s).expenses.map Expense.date) ∧
    (mkLogExpense newId today d).date = strOr d.date today ∧
    (optTruthy d.date = false → (mkLogExpense newId today d).date = today) ∧
    (optTruthy d.date = false → isDdMmYyyy today = true →
      isDdMmYyyy (mkLogExpense newId today d).date = true) := by
  have hdate : optTruthy d.date = false → (mkLogExpense newId today d).date = today := by
    intro h
    show strOr d.date today = today
    cases hdd : d.date with
    | none => rfl
    | some t =>
      rw [hdd] at h
      simp only [optTruthy] at h
      simp [strOr, h]
  refine ⟨?_, rfl, hdate, ?_⟩
  · rw [entriesPOST_log_eq body p today newId s d hint hs1 hs2 hd]
    rfl
  · intro h htoday
    rw [hdate h]
    exact htoday

/-- Witness for the amended C7 theorem: no model date, so the record carries
today's dd-MM-yyyy date. -/
theorem entriesPOST_log_date_witness :
    (mkLogExpense "9" "11-10-2025" dataNoDate).date = "11-10-2025" ∧
    isDdMmYyyy (mkLogExpense "9" "11-10-2025" dataNoDate).date = true :=
  ⟨(entriesPOST_log_date bodyEmptyList pLogNoDate "11-10-2025" "9" initialStore
      dataNoDate rfl (by decide) (by decide) rfl).2.2.1 (by decide),
   (entriesPOST_log_date bodyEmptyList pLogNoDate "11-10-2025" "9" initialStore
      dataNoDate rfl (by decide) (by decide) rfl).2.2.2 (by decide) (by decide)⟩

/-- C7 (counterexample): a model-supplied date 2025/10/11 is stored verbatim,
so the created expense's date string is not in dd-MM-yyyy format. -/
theorem log_expense_date_not_validated :
    Option.map (fun st => st.expenses.map Expense.date)
      (okState (entriesPOST bodyEmptyList (some pBadDate) "11-10-2025" "43" initialStore)) =
      some ["2025/10/11"] ∧
    isDdMmYyyy "2025/10/11" = false :=
  ⟨rfl, by decide⟩

/-- C10 (amended): a set_budget request writes the supplied amount to exactly
one budget entry — the supplied category name when it is truthy and not
case-insensitively total, and the total entry otherwise — and leaves every
other entry unchanged; the written entry holds exactly the supplied amount,
so the map differs from the previous one in at most that entry. -/
theorem entriesPOST_set_budget_frame (body : RequestBody) (p : ParsedResponse)
    (today newId : String) (s : StoreState) (d : RawData)
    (hint : p.intent = some "set_budget")
    (hs1 : p.execution_status ≠ some "ERROR")
    (hs2 : p.execution_status ≠ some "CLARIFICATION_NEEDED")
    (hd : p.data = some d) :
    Option.map (fun st => st.budget (budgetKeyOf d.category))
      (okState (entriesPOST body (some p) today newId s)) = some d.amount ∧
    (∀ k, k ≠ budgetKeyOf d.category →
      Option.map (fun st => st.budget k)
        (okState (entriesPOST body (some p) today newId s)) = some (s.budget k)) ∧
    (∀ c, d.category = some c → c ≠ "" → lowerString c ≠ "total" →
      budgetKeyOf d.category = c) ∧
    (∀ c, d.category = some c → lowerString c = "total" →
      budgetKeyOf d.category = "total") ∧
    (d.category = none → budgetKeyOf d.category = "total") := by
  rw [entriesPOST_set_budget_eq body p today newId s d hint hs1 hs2 hd]
  refine ⟨?_, ?_, ?_, ?_, ?_⟩
  · simp [okState, setBudget, getBudget, budgetSet]
  · intro k hk
    simp only [okState, Option.map, setBudget, getBudget, budgetSet]
    rw [if_neg hk, hydrateStore_budget]
  · intro c hc h1 h2
    simp only [budgetKeyOf, hc]
    rw [if_pos (by simp [h1, h2])]
  · intro c hc h2
    simp only [budgetKeyOf, hc]
    rw [if_neg (by simp [h2])]
  · intro hc
    simp [budgetKeyOf, hc]

/-- Witness for the amended C10 theorem: setting the Coffee budget to 3000
writes that entry and leaves the total entry unchanged. -/
theorem entriesPOST_set_budget_frame_witness :
    Option.map (fun st => st.budget "Coffee")
      (okState (entriesPOST bodyPlain (some pSetCoffee) "11-10-2025" "5" initialStore)) =
      some (some 3000) ∧
    Option.map (fun st => st.budget "total")
      (okState (entriesPOST bodyPlain (some pSetCoffee) "11-10-2025" "5" initialStore)) =
      some (initialStore.budget "total") :=
  by
  have h := entriesPOST_set_budget_frame bodyPlain pSetCoffee "11-10-2025" "5"
    initialStore dataCoffee rfl (by decide) (by decide) rfl
  have hkey : budgetKeyOf dataCoffee.category = "Coffee" := by decide
  constructor
  · have h1 := h.1
    rw [hkey] at h1
    exact h1
  · exact h.2.1 "total" (by rw [hkey]; decide)

/-- C10 (counterexample): re-setting the Food budget to its current value
15000 yields a budget map equal to the previous one — the resulting map
differs from its predecessor in zero entries, not exactly one. -/
theorem set_budget_may_change_nothing :
    dataFoodSame.category = some "Food" ∧
    dataFoodSame.amount = initialStore.budget "Food" ∧
    Option.map StoreState.budget
      (okState (entriesPOST bodyPlain (some pSetFoodSame) "11-10-2025" "6" initialStore)) =
      some initialStore.budget := by
  refine ⟨rfl, by decide, ?_⟩
  rw [entriesPOST_set_budget_eq bodyPlain pSetFoodSame "11-10-2025" "6" initialStore
    dataFoodSame rfl (by decide) (by decide) rfl]
  simp only [okState, Option.map, setBudget, getBudget, Option.some.injEq]
  funext k
  show budgetSet (hydrateStore bodyPlain initialStore).budget
    (budgetKeyOf dataFoodSame.category) dataFoodSame.amount k = initialStore.budget k
  rw [show budgetKeyOf dataFoodSame.category = "Food" from by decide,
    show dataFoodSame.amount = some 15000 from rfl]
  by_cases hk : k = "Food"
  · subst hk
    show budgetSet (hydrateStore bodyPlain initialStore).budget "Food" (some 15000) "Food" =
      initialStore.budget "Food"
    rw [show initialStore.budget "Food" = some 15000 from by decide]
    simp [budgetSet]
  · simp only [budgetSet]
    rw [if_neg hk, hydrateStore_budget]

/-- C5 (amended): every JSON response of the entries POST handler carries at
most one of the three structured payloads; past the guards, a log_expense
response carries the model's reply and the updated expense list, a
set_budget response the model's reply and the updated budget, a get_summary
response the model's reply and the model-supplied summary data, and an
update_last_expense response carries the updated list exactly when a last
transaction exists whose id is found in the list — otherwise only a fixed
reply. -/
theorem entriesPOST_response_shape (body : RequestBody) (p : ParsedResponse)
    (today newId : String) (s : StoreState) (r : ApiResponse) (s2 : StoreState)
    (hok : entriesPOST body (some p) today newId s = .ok (r, s2))
    (hs1 : p.execution_status ≠ some "ERROR")
    (hs2 : p.execution_status ≠ some "CLARIFICATION_NEEDED") :
    atMostOnePayload r ∧
    (p.intent = some "log_expense" →
      r.reply = p.reply ∧ r.updatedExpenses = some (getExpenses s2)) ∧
    (p.intent = some "set_budget" →
      r.reply = p.reply ∧ r.updatedBudget = some (getBudget s2)) ∧
    (p.intent = some "get_summary" →
      ∃ d, p.data = some d ∧ r.reply = p.reply ∧ r.summaryData = d.result) ∧
    (p.intent = some "update_last_expense" →
      (r.updatedExpenses.isSome = true ↔
        ∃ t, (hydrateStore body s).lastTransaction = some t ∧
          (updateExpenseById t.id (updatesOfData p.data) (hydrateStore body s)).1 = true)) := by
  refine ⟨entriesPOST_ok_atMostOne body (some p) today newId s r s2 hok, ?_, ?_, ?_, ?_⟩
  · intro hint
    cases hd : p.data with
    | none =>
      rw [entriesPOST_data_none_error body p today newId s (Or.inl hint) hs1 hs2 hd] at hok
      exact Except.noConfusion hok
    | some d =>
      rw [entriesPOST_log_eq body p today newId s d hint hs1 hs2 hd] at hok
      simp only [Except.ok.injEq, Prod.mk.injEq] at hok
      obtain ⟨hr, hst⟩ := hok
      subst hr; subst hst
      exact ⟨rfl, rfl⟩
  · intro hint
    cases hd : p.data with
    | none =>
      rw [entriesPOST_data_none_error body p today newId s (Or.inr (Or.inr hint))
        hs1 hs2 hd] at hok
      exact Except.noConfusion hok
    | some d =>
      rw [entriesPOST_set_budget_eq body p today newId s d hint hs1 hs2 hd] at hok
      simp only [Except.ok.injEq, Prod.mk.injEq] at hok
      obtain ⟨hr, hst⟩ := hok
      subst hr; subst hst
      exact ⟨rfl, rfl⟩
  · intro hint
    cases hd : p.data with
    | none =>
      rw [entriesPOST_data_none_error body p today newId s (Or.inr (Or.inl hint))
        hs1 hs2 hd] at hok
      exact Except.noConfusion hok
    | some d =>
      rw [entriesPOST_summary_eq body p today newId s d hint hs1 hs2 hd] at hok
      simp only [Except.ok.injEq, Prod.mk.injEq] at hok
      obtain ⟨hr, hst⟩ := hok
      subst hr
      exact ⟨d, rfl, rfl, rfl⟩
  · intro hint
    cases hlast : (hydrateStore body s).lastTransaction with
    | none =>
      rw [entriesPOST_update_no_last_eq body p today newId s hint hs1 hs2 hlast] at hok
      simp only [Except.ok.injEq, Prod.mk.injEq] at hok
      obtain ⟨hr, _⟩ := hok
      subst hr
      simp
    | some t =>
      rw [entriesPOST_update_some_eq body p today newId s t hint hs1 hs2 hlast] at hok
      by_cases hres :
        (updateExpenseById t.id (updatesOfData p.data) (hydrateStore body s)).1 = true
      · rw [if_pos hres] at hok
        simp only [Except.ok.injEq, Prod.mk.injEq] at hok
        obtain ⟨hr, _⟩ := hok
        subst hr
        exact iff_of_true rfl ⟨t, rfl, hres⟩
      · rw [if_neg hres] at hok
        simp only [Except.ok.injEq, Prod.mk.injEq] at hok
        obtain ⟨hr, _⟩ := hok
        subst hr
        refine iff_of_false (by simp) ?_
        rintro ⟨t2, ht2, hres2⟩
        cases ht2
        exact hres hres2

/-- Witness for the amended C5 theorem at a concrete successful log_expense
request. -/
theorem entriesPOST_response_shape_witness :
    atMostOnePayload
      { reply := some "Logged.", updatedExpenses := some (getExpenses logState7) } ∧
    ({ reply := some "Logged.", updatedExpenses := some (getExpenses logState7) } :
      ApiResponse).updatedExpenses = some (getExpenses logState7) := by
  have h := entriesPOST_response_shape bodyEmptyList pLogFood "11-10-2025" "7"
    initialStore
    { reply := some "Logged.", updatedExpenses := some (getExpenses logState7) }
    logState7 rfl (by decide) (by decide)
  exact ⟨h.1, (h.2.1 rfl).2⟩

/-- C5 (counterexample): a successful update_last_expense request against an
empty store — the handler answers with only a fixed reply and no updated
expense list, although the inferred intent is update_last_expense. -/
theorem update_last_expense_without_list :
    okResponse (entriesPOST bodyEmptyList (some pUpdateNoLast) "11-10-2025" "8" initialStore) =
      some { reply := some noRecentMsg } ∧
    ({ reply := some noRecentMsg } : ApiResponse).updatedExpenses = none :=
  ⟨rfl, rfl⟩

end BudgetTracker
